import Mathlib

/-!
Shallow embedding of the MoodMate sentiment engine
(`src/sentiment_analyzer.py`, class `SentimentAnalyzer`).

Scores are modelled with exact rationals (ℚ).  Python string operations are
modelled on Lean `String`/`List Char`, restricted to the ASCII fragment
(`str.lower`, `str.isupper`, `\s`, `\w`, `str.split`) — the lexicons and all
text constants in the source are ASCII.  The two external third-party
analyzers (VADER, TextBlob) are oracles: `analyze` takes them as function
parameters, since their lexicons are not part of this repository.
-/

namespace MoodMate

/-- ASCII fragment of Python `\s` / `str.split()` whitespace. -/
def pyIsSpace (c : Char) : Bool :=
  c = ' ' || c = '\t' || c = '\n' || c = '\r' || c.toNat = 11 || c.toNat = 12

/-- ASCII fragment of Python `str.isupper` on a single character. -/
def pyIsUpper (c : Char) : Bool :=
  65 ≤ c.toNat && c.toNat ≤ 90

/-- ASCII fragment of Python `str.lower` on a single character. -/
def pyLowerChar (c : Char) : Char :=
  if 65 ≤ c.toNat && c.toNat ≤ 90 then Char.ofNat (c.toNat + 32) else c

/-- Python `str.lower`. -/
def lowerString (s : String) : String :=
  ⟨s.data.map pyLowerChar⟩

/-- ASCII fragment of the regex word character class `\w`. -/
def wordChar (c : Char) : Bool :=
  (48 ≤ c.toNat && c.toNat ≤ 57) || (65 ≤ c.toNat && c.toNat ≤ 90) ||
  (97 ≤ c.toNat && c.toNat ≤ 122) || c = '_'

/-- Python `str.strip()` (whitespace at both ends). -/
def pyStrip (s : String) : String :=
  ⟨((s.data.dropWhile pyIsSpace).reverse.dropWhile pyIsSpace).reverse⟩

/-- `re.sub(r"\s+", " ", ·)`: each maximal whitespace run becomes one space.
The boolean tracks whether the previous character was whitespace. -/
def collapseAux : Bool → List Char → List Char
  | _, [] => []
  | prevSp, c :: cs =>
    if pyIsSpace c then
      if prevSp then collapseAux true cs else ' ' :: collapseAux true cs
    else c :: collapseAux false cs

def collapseWs (s : String) : String :=
  ⟨collapseAux false s.data⟩

/-- Python `str.split()` (no separator): split on whitespace runs, no empty
tokens.  First argument accumulates the current token reversed. -/
def pySplitAux : List Char → List Char → List String
  | cur, [] => if cur.isEmpty then [] else [⟨cur.reverse⟩]
  | cur, c :: cs =>
    if pyIsSpace c then
      if cur.isEmpty then pySplitAux [] cs else (⟨cur.reverse⟩ : String) :: pySplitAux [] cs
    else pySplitAux (c :: cur) cs

def pySplit (s : String) : List String :=
  pySplitAux [] s.data

/-- Python `str.split('.')` (used only through its length). -/
def splitOnDot : List Char → List (List Char)
  | [] => [[]]
  | c :: cs =>
    if c = '.' then [] :: splitOnDot cs
    else
      match splitOnDot cs with
      | [] => [[c]]
      | h :: t => (c :: h) :: t

/-- Case-insensitive match of `pat` against a prefix of the text. -/
def matchesCI : List Char → List Char → Bool
  | [], _ => true
  | _ :: _, [] => false
  | p :: ps, c :: cs => pyLowerChar c = pyLowerChar p && matchesCI ps cs

/-- `\b` after the match: next original character (if any) is not a `\w`. -/
def boundaryAfter (l : List Char) : Bool :=
  match l with
  | [] => true
  | c :: _ => !wordChar c

/-- `re.sub(r"\b" ++ pat ++ r"\b", repl, ·, flags=IGNORECASE)` for a pattern
made of literal word characters plus apostrophes (the contraction table).
The boolean says whether the previous character of the original text is a
word character (`\b` before the match requires it not to be).  Matching is
against the original text, so after a replacement the scan resumes after the
matched pattern with the pattern's last character as the previous one. -/
def replaceWB (pat repl : List Char) : Bool → List Char → List Char
  | _, [] => []
  | prevWord, c :: cs =>
    if 0 < pat.length ∧ !prevWord ∧ matchesCI pat (c :: cs) ∧
        boundaryAfter ((c :: cs).drop pat.length) then
      repl ++ replaceWB pat repl ((pat.getLastD ' ') |> wordChar) ((c :: cs).drop pat.length)
    else c :: replaceWB pat repl (wordChar c) cs
  termination_by _ l => l.length
  decreasing_by
    · simp only [List.length_drop, List.length_cons]
      omega
    · simp [Nat.lt_succ_self]

def applyContraction (s : String) (ce : String × String) : String :=
  ⟨replaceWB ce.1.data ce.2.data false s.data⟩

/-- The contraction table of `preprocess_text` (insertion order of the
Python dict). -/
def contractions : List (String × String) :=
  [("i'm", "i am"), ("i've", "i have"), ("i'll", "i will"),
   ("i'd", "i would"), ("you're", "you are"), ("you've", "you have"),
   ("you'll", "you will"), ("you'd", "you would"), ("he's", "he is"),
   ("she's", "she is"), ("it's", "it is"), ("we're", "we are"),
   ("they're", "they are"), ("can't", "cannot"), ("won't", "will not"),
   ("don't", "do not"), ("didn't", "did not"), ("couldn't", "could not"),
   ("wouldn't", "would not"), ("shouldn't", "should not")]

/-- `SentimentAnalyzer.preprocess_text`: collapse whitespace on the stripped
text, expand contractions, lowercase. -/
def preprocess_text (text : String) : String :=
  lowerString (contractions.foldl applyContraction (collapseWs (pyStrip text)))

/-- `self.positive_psychology_words` (insertion order of the dict). -/
def positive_psychology_words : List (String × ℚ) :=
  [("grateful", 2.0), ("thankful", 1.8), ("blessed", 1.5), ("accomplished", 2.2),
   ("proud", 2.0), ("confident", 1.8), ("optimistic", 1.9), ("hopeful", 2.1),
   ("peaceful", 1.7), ("content", 1.5), ("fulfilled", 2.3), ("motivated", 1.9),
   ("inspired", 2.0), ("energetic", 1.6), ("relaxed", 1.4), ("calm", 1.3),
   ("balanced", 1.5), ("centered", 1.4), ("empowered", 2.1), ("resilient", 2.0),
   ("progress", 1.7), ("growth", 1.8), ("breakthrough", 2.2), ("healing", 1.9)]

/-- `self.negative_psychology_words`. -/
def negative_psychology_words : List (String × ℚ) :=
  [("anxious", -2.1), ("overwhelmed", -2.3), ("depressed", -2.5), ("hopeless", -2.8),
   ("frustrated", -1.9), ("lonely", -2.0), ("stressed", -2.2), ("worried", -1.8),
   ("disappointed", -1.7), ("exhausted", -2.0), ("burnout", -2.4), ("numb", -1.9),
   ("empty", -2.1), ("worthless", -2.7), ("helpless", -2.4), ("trapped", -2.2),
   ("confused", -1.5), ("lost", -1.8), ("broken", -2.3), ("struggling", -1.9),
   ("panic", -2.6), ("fear", -1.8), ("terror", -2.5), ("dread", -2.2)]

/-- `self.intensity_modifiers`. -/
def intensity_modifiers : List (String × ℚ) :=
  [("very", 1.3), ("extremely", 1.5), ("incredibly", 1.4), ("really", 1.2),
   ("quite", 1.1), ("pretty", 1.1), ("somewhat", 0.8), ("slightly", 0.7),
   ("a bit", 0.6), ("a little", 0.6), ("totally", 1.4), ("completely", 1.5)]

/-- Python dict membership test / lookup, modelled on the association list.
All three dicts have pairwise-distinct keys, so list order is irrelevant. -/
def lookupW (tbl : List (String × ℚ)) (w : String) : Option ℚ :=
  (tbl.find? fun p => p.1 == w).map Prod.snd

/-- The `word_score` of one loop iteration of `psychology_weighted_analysis`
before the modifier step: 0.0, overwritten by the positive lookup, `elif` by
the negative lookup. -/
def baseScore (word : String) : ℚ :=
  match lookupW positive_psychology_words word with
  | some v => v
  | none =>
    match lookupW negative_psychology_words word with
    | some v => v
    | none => 0.0

/-- The body of the `for i, word in enumerate(words)` loop of
`psychology_weighted_analysis`: score contributed by the word at index `i`
(`words[i]`), multiplied by the modifier of `words[i-1]` when `i > 0` and
that word is in the modifier table.  The modifier table is a parameter (the
source always passes `self.intensity_modifiers`). -/
def wordScoreAt (mods : List (String × ℚ)) (words : List String) (i : ℕ) : ℚ :=
  if 0 < i then
    match lookupW mods (words.getD (i - 1) "") with
    | some m => baseScore (words.getD i "") * m
    | none => baseScore (words.getD i "")
  else baseScore (words.getD i "")

/-- The accumulated `total_score` of `psychology_weighted_analysis`. -/
def psychTotal (mods : List (String × ℚ)) (words : List String) : ℚ :=
  ((List.range words.length).map (wordScoreAt mods words)).sum

/-- `SentimentAnalyzer.psychology_weighted_analysis`, with the modifier
table as a parameter. -/
def psychologyWeightedWith (mods : List (String × ℚ)) (text : String) : ℚ :=
  let words := pySplit text
  if words.length = 0 then 0.0
  else psychTotal mods words / words.length

/-- `SentimentAnalyzer.psychology_weighted_analysis`. -/
def psychology_weighted_analysis (text : String) : ℚ :=
  psychologyWeightedWith intensity_modifiers text

/-- `intensity_indicators` local list of `analyze_emotional_intensity`. -/
def intensity_indicators : List String :=
  ["very", "extremely", "incredibly", "totally", "completely",
   "absolutely", "utterly", "deeply", "intensely", "overwhelming",
   "devastating", "amazing", "fantastic", "terrible", "awful"]

/-- `SentimentAnalyzer.analyze_emotional_intensity`. -/
def analyze_emotional_intensity (text : String) : ℚ :=
  let words := pySplit text
  let intensity_count : ℕ := words.countP fun w => intensity_indicators.contains w
  let exclamation_count : ℕ := text.data.count '!'
  let caps_ratio : ℚ := (text.data.countP pyIsUpper : ℚ) / (max text.data.length 1 : ℕ)
  let intensity_score : ℚ :=
    ((intensity_count : ℚ) / (max words.length 1 : ℕ)) * 0.5 +
    ((exclamation_count : ℚ) / (max (splitOnDot text.data).length 1 : ℕ)) * 0.3 +
    caps_ratio * 0.2
  min intensity_score 1.0

/-- `SentimentAnalyzer.calculate_combined_score`: the weights dict is
`{'vader': 0.35, 'textblob': 0.25, 'psychology': 0.30, 'intensity': 0.10}`. -/
def calculate_combined_score (vader_compound textblob_polarity psych_score intensity_score : ℚ) : ℚ :=
  let combined : ℚ :=
    vader_compound * 0.35 +
    textblob_polarity * 0.25 +
    psych_score * 0.30 +
    intensity_score * 0.10
  max (-1.0) (min 1.0 combined)

/-- `SentimentAnalyzer.classify_sentiment`. -/
def classify_sentiment (combined_score : ℚ) : String :=
  if combined_score ≥ 0.15 then "positive"
  else if combined_score ≤ -0.15 then "negative"
  else "neutral"

/-- The `polarity_scores` dict of the external VADER analyzer. -/
structure VaderScores where
  compound : ℚ
  pos : ℚ
  neu : ℚ
  neg : ℚ
deriving Repr, DecidableEq

/-- `SentimentAnalyzer.calculate_confidence`. -/
def calculate_confidence (vader_scores : VaderScores) (textblob_polarity psych_score : ℚ) : ℚ :=
  let scores : List ℚ := [vader_scores.compound, textblob_polarity, psych_score]
  let non_zero_scores := scores.filter fun s => |s| > 0.05
  if non_zero_scores.length < 2 then 0.5
  else
    let positive_count : ℕ := non_zero_scores.countP fun s => s > 0.1
    let negative_count : ℕ := non_zero_scores.countP fun s => s < -0.1
    let neutral_count : ℕ := non_zero_scores.length - positive_count - negative_count
    let max_agreement : ℕ := max (max positive_count negative_count) neutral_count
    let agreement_ratio : ℚ := (max_agreement : ℚ) / (non_zero_scores.length : ℚ)
    let avg_magnitude : ℚ := (non_zero_scores.map fun s => |s|).sum / (non_zero_scores.length : ℚ)
    min (agreement_ratio * 0.7 + avg_magnitude * 0.3) 1.0

/-- Python `round(·)` to an integer: round half to even (banker's rounding),
on the exact rational value. -/
def roundHalfEven (q : ℚ) : ℤ :=
  if q - ⌊q⌋ < 1/2 then ⌊q⌋
  else if 1/2 < q - ⌊q⌋ then ⌊q⌋ + 1
  else if ⌊q⌋ % 2 = 0 then ⌊q⌋ else ⌊q⌋ + 1

/-- Python `round(·, 3)`. -/
def round3 (q : ℚ) : ℚ :=
  (roundHalfEven (q * 1000) : ℚ) / 1000

/-- The dict returned by `SentimentAnalyzer.analyze`. -/
structure AnalysisResult where
  compound_score : ℚ
  sentiment_label : String
  confidence : ℚ
  vader_scores : VaderScores
  textblob_polarity : ℚ
  textblob_subjectivity : ℚ
  psychology_score : ℚ
  emotional_intensity : ℚ
  word_count : ℕ
deriving Repr, DecidableEq

/-- `SentimentAnalyzer._empty_result`. -/
def emptyResult : AnalysisResult where
  compound_score := 0.0
  sentiment_label := "neutral"
  confidence := 0.0
  vader_scores := ⟨0.0, 0.0, 1.0, 0.0⟩
  textblob_polarity := 0.0
  textblob_subjectivity := 0.0
  psychology_score := 0.0
  emotional_intensity := 0.0
  word_count := 0

/-- `SentimentAnalyzer.analyze`.  `vader` and `textblob` are the two external
third-party analyzers (TextBlob yields `(polarity, subjectivity)`); they are
parameters because their lexicons live outside this repository. -/
def analyze (vader : String → VaderScores) (textblob : String → ℚ × ℚ)
    (text : String) : AnalysisResult :=
  if text = "" ∨ pyStrip text = "" then emptyResult
  else
    let cleaned_text := preprocess_text text
    let vader_scores := vader cleaned_text
    let textblob_polarity := (textblob cleaned_text).1
    let textblob_subjectivity := (textblob cleaned_text).2
    let psych_score := psychology_weighted_analysis cleaned_text
    let intensity_score := analyze_emotional_intensity cleaned_text
    let combined_score := calculate_combined_score
      vader_scores.compound textblob_polarity psych_score intensity_score
    let sentiment_label := classify_sentiment combined_score
    let confidence := calculate_confidence vader_scores textblob_polarity psych_score
    { compound_score := round3 combined_score
      sentiment_label := sentiment_label
      confidence := round3 confidence
      vader_scores := vader_scores
      textblob_polarity := round3 textblob_polarity
      textblob_subjectivity := round3 textblob_subjectivity
      psychology_score := round3 psych_score
      emotional_intensity := round3 intensity_score
      word_count := (pySplit cleaned_text).length }

/-! Reference definitions taken from the spec's words (for the
refinement-style claims), to be compared with the source embeddings above. -/

/-- Spec §4.2: a token's weight from the positive or negative domain table,
0 if absent in both. -/
def specBaseWeight (w : String) : ℚ :=
  match lookupW positive_psychology_words w with
  | some v => v
  | none =>
    match lookupW negative_psychology_words w with
    | some v => v
    | none => 0

/-- Spec §4.2: sum of the per-token contributions, each multiplied by the
modifier of the immediately preceding token when that token is in the
intensity-modifier table.  `prev` is the preceding token, if any. -/
def specContribs : Option String → List String → ℚ
  | _, [] => 0
  | prev, w :: rest =>
    (match prev.bind (lookupW intensity_modifiers) with
     | some m => specBaseWeight w * m
     | none => specBaseWeight w) + specContribs (some w) rest

/-- Spec §4.2 `domainScore`: average weighted polarity per token, 0.0 on
zero tokens. -/
def specDomainScore (text : String) : ℚ :=
  let toks := pySplit text
  if toks.length = 0 then 0.0
  else specContribs none toks / toks.length

/-- Spec §4.7 confidence, phrased with an explicit three-way partition of the
remaining scores (the claim's wording), rather than the counting of the
source. -/
def confidenceSpec (compound textblob_polarity psych_score : ℚ) : ℚ :=
  let remaining := [compound, textblob_polarity, psych_score].filter
    fun s => !(decide (|s| ≤ 0.05))
  if remaining.length < 2 then 0.5
  else
    let posBucket := remaining.filter fun s => decide (s > 0.1)
    let negBucket := remaining.filter fun s => decide (s < -0.1)
    let neuBucket := remaining.filter fun s => !(decide (s > 0.1)) && !(decide (s < -0.1))
    let largest : ℕ := max (max posBucket.length negBucket.length) neuBucket.length
    let avgAbs : ℚ := (remaining.map fun s => |s|).sum / (remaining.length : ℚ)
    min ((largest : ℚ) / (remaining.length : ℚ) * 0.7 + avgAbs * 0.3) 1.0

/-- `analyze_emotional_intensity` with the uppercase-ratio term deleted
(spec §4.3 note: that term is structurally zero after normalization). -/
def intensityNoCaps (text : String) : ℚ :=
  let words := pySplit text
  let intensity_count : ℕ := words.countP fun w => intensity_indicators.contains w
  let exclamation_count : ℕ := text.data.count '!'
  let intensity_score : ℚ :=
    ((intensity_count : ℚ) / (max words.length 1 : ℕ)) * 0.5 +
    ((exclamation_count : ℚ) / (max (splitOnDot text.data).length 1 : ℕ)) * 0.3
  min intensity_score 1.0

/-- The intensity-modifier table with the two multi-word keys
("a bit", "a little") removed. -/
def intensity_modifiers_singleword : List (String × ℚ) :=
  [("very", 1.3), ("extremely", 1.5), ("incredibly", 1.4), ("really", 1.2),
   ("quite", 1.1), ("pretty", 1.1), ("somewhat", 0.8), ("slightly", 0.7),
   ("totally", 1.4), ("completely", 1.5)]

/-! ### Theorems -/

/-- C3: `classify_sentiment` returns positive iff the score is ≥ 0.15,
negative iff it is ≤ -0.15, neutral otherwise; in particular at the
boundary inputs 0.15, 0.1499, -0.15, -0.1499. -/
theorem classify_sentiment_thresholds (x : ℚ) :
    (classify_sentiment x = "positive" ↔ 0.15 ≤ x) ∧
    (classify_sentiment x = "negative" ↔ x ≤ -0.15) ∧
    (classify_sentiment x = "neutral" ↔ -0.15 < x ∧ x < 0.15) ∧
    classify_sentiment 0.15 = "positive" ∧
    classify_sentiment 0.1499 = "neutral" ∧
    classify_sentiment (-0.15) = "negative" ∧
    classify_sentiment (-0.1499) = "neutral" := by
  refine ⟨?_, ?_, ?_, by norm_num [classify_sentiment], by norm_num [classify_sentiment],
    by norm_num [classify_sentiment], by norm_num [classify_sentiment]⟩ <;>
    unfold classify_sentiment <;>
    split_ifs with h1 h2 <;>
    (simp_all
     all_goals linarith)

theorem psychTotal_very_grateful_eval :
    psychTotal intensity_modifiers (pySplit "very grateful") = 2.6 := by
  have h : pySplit "very grateful" = ["very", "grateful"] := rfl
  have h1 : lookupW positive_psychology_words "very" = none := rfl
  have h2 : lookupW negative_psychology_words "very" = none := rfl
  have h3 : lookupW positive_psychology_words "grateful" = some 2.0 := rfl
  have h4 : lookupW intensity_modifiers "very" = some 1.3 := rfl
  unfold psychTotal
  rw [h]
  norm_num [wordScoreAt, baseScore, h1, h2, h3, h4, List.range_succ]

theorem psychTotal_grateful_eval :
    psychTotal intensity_modifiers (pySplit "grateful") = 2.0 := by
  have h : pySplit "grateful" = ["grateful"] := rfl
  have h3 : lookupW positive_psychology_words "grateful" = some 2.0 := rfl
  unfold psychTotal
  rw [h]
  norm_num [wordScoreAt, baseScore, h3, List.range_succ]

theorem psych_very_grateful_eval :
    psychology_weighted_analysis "very grateful" = 1.3 := by
  have h : pySplit "very grateful" = ["very", "grateful"] := rfl
  unfold psychology_weighted_analysis psychologyWeightedWith
  rw [h]
  have h' : psychTotal intensity_modifiers (pySplit "very grateful") = 2.6 :=
    psychTotal_very_grateful_eval
  rw [h] at h'
  norm_num [h']

theorem psych_grateful_eval :
    psychology_weighted_analysis "grateful" = 2.0 := by
  have h : pySplit "grateful" = ["grateful"] := rfl
  unfold psychology_weighted_analysis psychologyWeightedWith
  rw [h]
  have h' : psychTotal intensity_modifiers (pySplit "grateful") = 2.0 :=
    psychTotal_grateful_eval
  rw [h] at h'
  norm_num [h']

/-- C4 counterexample: contrary to the claim, the domain-weighted scorer
gives "very grateful" the value 1.3 and "grateful" the value 2.0, so the
strict inequality of the claim fails (the per-word normalization divides the
amplified 2.6 by two tokens). -/
theorem domain_score_very_grateful_cex :
    ¬ (psychology_weighted_analysis "grateful" < psychology_weighted_analysis "very grateful") := by
  rw [psych_grateful_eval, psych_very_grateful_eval]
  norm_num

/-- C4 amended: before the division by token count, the accumulated weighted
total of "very grateful" (2.6 = 2.0 × 1.3) strictly exceeds that of
"grateful" (2.0); the per-word averages compare the other way
(1.3 < 2.0). -/
theorem domain_total_very_grateful :
    psychTotal intensity_modifiers (pySplit "very grateful") = 2.6 ∧
    psychTotal intensity_modifiers (pySplit "grateful") = 2.0 ∧
    psychology_weighted_analysis "very grateful" = 1.3 ∧
    psychology_weighted_analysis "grateful" = 2.0 ∧
    (2.0 : ℚ) < 2.6 := by
  refine ⟨psychTotal_very_grateful_eval, psychTotal_grateful_eval,
    psych_very_grateful_eval, psych_grateful_eval, by norm_num⟩

/-- C7: the fused score is the weighted sum 0.35/0.25/0.30/0.10 of the four
method scores, clamped to [-1, 1] after the sum. -/
theorem combined_score_formula (a b c d : ℚ) :
    calculate_combined_score a b c d =
      (if 1 < a * 0.35 + b * 0.25 + c * 0.30 + d * 0.10 then 1
       else if a * 0.35 + b * 0.25 + c * 0.30 + d * 0.10 < -1 then -1
       else a * 0.35 + b * 0.25 + c * 0.30 + d * 0.10) := by
  unfold calculate_combined_score
  simp only [min_def, max_def]
  split_ifs <;> first | rfl | linarith

/-- C9: the positive and negative domain lexicons have strictly positive and
strictly negative weights respectively, and share no key. -/
theorem psychology_lexicons_invariants :
    (∀ p ∈ positive_psychology_words, 0 < p.2) ∧
    (∀ p ∈ negative_psychology_words, p.2 < 0) ∧
    (∀ p ∈ positive_psychology_words, ∀ q ∈ negative_psychology_words, p.1 ≠ q.1) := by
  refine ⟨?_, ?_, by decide⟩ <;>
    · simp only [positive_psychology_words, negative_psychology_words,
        List.forall_mem_cons, List.forall_mem_nil]
      norm_num

theorem le_roundHalfEven {A : ℤ} {q : ℚ} (h : (A : ℚ) ≤ q) : A ≤ roundHalfEven q := by
  have hf : A ≤ ⌊q⌋ := Int.le_floor.mpr h
  unfold roundHalfEven
  split_ifs <;> omega

theorem roundHalfEven_le {B : ℤ} {q : ℚ} (h : q ≤ (B : ℚ)) : roundHalfEven q ≤ B := by
  have hf : ⌊q⌋ ≤ B := by
    have h1 : ⌊q⌋ ≤ ⌊(B : ℚ)⌋ := Int.floor_le_floor h
    simpa using h1
  have hq : (⌊q⌋ : ℚ) ≤ q := Int.floor_le q
  have key : (⌊q⌋ : ℚ) < q → ⌊q⌋ + 1 ≤ B := by
    intro hlt
    rcases lt_or_eq_of_le hf with h' | h'
    · omega
    · exfalso
      rw [h'] at hlt
      have : (B : ℚ) < q := by exact_mod_cast hlt
      linarith
  unfold roundHalfEven
  split_ifs with h1 h2 h3
  · exact hf
  · exact key (by linarith)
  · exact hf
  · have h2' : (1 : ℚ)/2 ≤ q - ⌊q⌋ := le_of_not_lt h1
    exact key (by linarith)

/-- `round3` maps an interval with integer endpoints into itself. -/
theorem round3_mem {a b : ℤ} {q : ℚ} (ha : (a : ℚ) ≤ q) (hb : q ≤ (b : ℚ)) :
    (a : ℚ) ≤ round3 q ∧ round3 q ≤ (b : ℚ) := by
  have h1 : (1000 * a : ℤ) ≤ roundHalfEven (q * 1000) := by
    apply le_roundHalfEven
    push_cast
    linarith
  have h2 : roundHalfEven (q * 1000) ≤ (1000 * b : ℤ) := by
    apply roundHalfEven_le
    push_cast
    linarith
  have h1' : (1000 * a : ℚ) ≤ (roundHalfEven (q * 1000) : ℚ) := by exact_mod_cast h1
  have h2' : ((roundHalfEven (q * 1000) : ℤ) : ℚ) ≤ (1000 * b : ℚ) := by exact_mod_cast h2
  unfold round3
  constructor
  · rw [le_div_iff₀ (by norm_num : (0 : ℚ) < 1000)]
    linarith
  · rw [div_le_iff₀ (by norm_num : (0 : ℚ) < 1000)]
    linarith

theorem calculate_combined_score_bounds (a b c d : ℚ) :
    -1 ≤ calculate_combined_score a b c d ∧ calculate_combined_score a b c d ≤ 1 := by
  unfold calculate_combined_score
  constructor
  · have h := le_max_left (-1.0 : ℚ) (min 1.0 (a * 0.35 + b * 0.25 + c * 0.30 + d * 0.10))
    linarith
  · apply max_le (by norm_num)
    have h := min_le_left (1.0 : ℚ) (a * 0.35 + b * 0.25 + c * 0.30 + d * 0.10)
    linarith

theorem calculate_confidence_bounds (vs : VaderScores) (tp ps : ℚ) :
    0 ≤ calculate_confidence vs tp ps ∧ calculate_confidence vs tp ps ≤ 1 := by
  unfold calculate_confidence
  simp only []
  split_ifs with h
  · norm_num
  · constructor
    · refine le_min ?_ (by norm_num)
      apply add_nonneg
      · apply mul_nonneg _ (by norm_num)
        exact div_nonneg (by positivity) (by positivity)
      · apply mul_nonneg _ (by norm_num)
        apply div_nonneg _ (by positivity)
        apply List.sum_nonneg
        intro x hx
        obtain ⟨y, _, rfl⟩ := List.mem_map.mp hx
        exact abs_nonneg y
    · exact le_trans (min_le_right _ _) (by norm_num)

/-- C2: blank input (empty or whitespace-only) makes `analyze` return the
fixed neutral result — compound 0.0, label neutral, confidence 0.0,
word count 0 — and it does so for every pair of external scorers, i.e.
without consulting any scoring method. -/
theorem analyze_blank_input (vader : String → VaderScores) (textblob : String → ℚ × ℚ)
    (text : String) (h : text = "" ∨ pyStrip text = "") :
    analyze vader textblob text = emptyResult ∧
    (analyze vader textblob text).compound_score = 0.0 ∧
    (analyze vader textblob text).sentiment_label = "neutral" ∧
    (analyze vader textblob text).confidence = 0.0 ∧
    (analyze vader textblob text).word_count = 0 := by
  have e : analyze vader textblob text = emptyResult := by
    unfold analyze
    exact if_pos h
  refine ⟨e, ?_, ?_, ?_, ?_⟩ <;> rw [e] <;> rfl

/-- Witness for `analyze_blank_input` at the whitespace-only input `"   "`. -/
theorem analyze_blank_input_witness :
    analyze (fun _ => ⟨0, 0, 1, 0⟩) (fun _ => (0, 0)) "   " = emptyResult ∧
    (analyze (fun _ => ⟨0, 0, 1, 0⟩) (fun _ => (0, 0)) "   ").compound_score = 0.0 ∧
    (analyze (fun _ => ⟨0, 0, 1, 0⟩) (fun _ => (0, 0)) "   ").sentiment_label = "neutral" ∧
    (analyze (fun _ => ⟨0, 0, 1, 0⟩) (fun _ => (0, 0)) "   ").confidence = 0.0 ∧
    (analyze (fun _ => ⟨0, 0, 1, 0⟩) (fun _ => (0, 0)) "   ").word_count = 0 :=
  analyze_blank_input (fun _ => ⟨0, 0, 1, 0⟩) (fun _ => (0, 0)) "   " (Or.inr rfl)

/-- C1: for every input text and every behaviour of the two external
scorers, the result of `analyze` has `compound_score ∈ [-1, 1]` and
`confidence ∈ [0, 1]`. -/
theorem analyze_bounded (vader : String → VaderScores) (textblob : String → ℚ × ℚ)
    (text : String) :
    -1 ≤ (analyze vader textblob text).compound_score ∧
    (analyze vader textblob text).compound_score ≤ 1 ∧
    0 ≤ (analyze vader textblob text).confidence ∧
    (analyze vader textblob text).confidence ≤ 1 := by
  unfold analyze
  split_ifs with h
  · norm_num [emptyResult]
  · simp only []
    obtain ⟨hc1, hc2⟩ := calculate_combined_score_bounds
      (vader (preprocess_text text)).compound (textblob (preprocess_text text)).1
      (psychology_weighted_analysis (preprocess_text text))
      (analyze_emotional_intensity (preprocess_text text))
    obtain ⟨hf1, hf2⟩ := calculate_confidence_bounds
      (vader (preprocess_text text)) (textblob (preprocess_text text)).1
      (psychology_weighted_analysis (preprocess_text text))
    have hr1 := round3_mem (a := -1) (b := 1) (by exact_mod_cast hc1) (by exact_mod_cast hc2)
    have hr2 := round3_mem (a := 0) (b := 1) (by exact_mod_cast hf1) (by exact_mod_cast hf2)
    push_cast at hr1 hr2
    exact ⟨hr1.1, hr1.2, hr2.1, hr2.2⟩

theorem specBaseWeight_eq_baseScore (w : String) : specBaseWeight w = baseScore w := by
  unfold specBaseWeight baseScore
  rcases lookupW positive_psychology_words w with _ | v
  · rcases lookupW negative_psychology_words w with _ | v' <;> norm_num
  · rfl

theorem wordScoreAt_cons (mods : List (String × ℚ)) (w : String) (l : List String)
    (j : ℕ) (hj : 1 ≤ j) :
    wordScoreAt mods (w :: l) (j + 1) = wordScoreAt mods l j := by
  obtain ⟨k, rfl⟩ : ∃ k, j = k + 1 := ⟨j - 1, by omega⟩
  unfold wordScoreAt
  simp only [List.getD_cons_succ, Nat.add_sub_cancel, if_pos (Nat.succ_pos _),
    if_pos (Nat.succ_pos k)]

theorem wordScoreAt_one (mods : List (String × ℚ)) (w r : String) (l : List String) :
    wordScoreAt mods (w :: r :: l) 1 =
      (match lookupW mods w with
       | some m => baseScore r * m
       | none => baseScore r) := by
  unfold wordScoreAt
  simp only [List.getD_cons_succ, List.getD_cons_zero, if_pos Nat.one_pos]
  rfl

theorem psychTotal_cons (mods : List (String × ℚ)) (w : String) (l : List String) :
    psychTotal mods (w :: l) =
      wordScoreAt mods (w :: l) 0 +
      ((List.range l.length).map fun i => wordScoreAt mods (w :: l) (i + 1)).sum := by
  unfold psychTotal
  rw [List.length_cons, List.range_succ_eq_map]
  simp [List.map_map, Function.comp_def]

theorem psychTotal_shift (l : List String) : ∀ w : String,
    ((List.range l.length).map fun i => wordScoreAt intensity_modifiers (w :: l) (i + 1)).sum
      = specContribs (some w) l := by
  induction l with
  | nil => intro w; simp [specContribs]
  | cons r rs ih =>
    intro w
    rw [List.length_cons, List.range_succ_eq_map]
    have hmap : ((List.range rs.length).map fun i =>
        wordScoreAt intensity_modifiers (w :: r :: rs) (i + 1 + 1)).sum
        = ((List.range rs.length).map fun i =>
            wordScoreAt intensity_modifiers (r :: rs) (i + 1)).sum := by
      congr 1
      apply List.map_congr_left
      intro i _
      exact wordScoreAt_cons intensity_modifiers w (r :: rs) (i + 1) (Nat.le_add_left 1 i)
    simp only [List.map_cons, List.map_map, List.sum_cons, Function.comp_def]
    rw [hmap, ih r, wordScoreAt_one]
    simp only [specContribs, specBaseWeight_eq_baseScore]
    rfl

theorem psychTotal_eq_specContribs (l : List String) :
    psychTotal intensity_modifiers l = specContribs none l := by
  cases l with
  | nil => simp [psychTotal, specContribs]
  | cons w rs =>
    rw [psychTotal_cons, psychTotal_shift rs w]
    have h0 : wordScoreAt intensity_modifiers (w :: rs) 0 = baseScore w := by
      unfold wordScoreAt
      simp
    rw [h0]
    simp only [specContribs, specBaseWeight_eq_baseScore]
    rfl

/-- C5: the domain-weighted scorer of the source coincides, on every text,
with the reference definition written from the spec's words (per-token
weight from the two domain tables, multiplied by the preceding token's
modifier when present, summed and divided by the token count, 0.0 on zero
tokens). -/
theorem psychology_weighted_refines_spec (text : String) :
    psychology_weighted_analysis text = specDomainScore text := by
  unfold psychology_weighted_analysis psychologyWeightedWith specDomainScore
  simp only [psychTotal_eq_specContribs]

theorem counts_disjoint_le {α : Type} (p q : α → Bool)
    (hd : ∀ x, p x = true → q x = false) (l : List α) :
    l.countP p + l.countP q ≤ l.length := by
  induction l with
  | nil => simp
  | cons a t ih =>
    rw [List.length_cons]
    rcases hp : p a
    · rw [List.countP_cons_of_neg p t (by simp [hp])]
      rcases hq : q a
      · rw [List.countP_cons_of_neg q t (by simp [hq])]
        omega
      · rw [List.countP_cons_of_pos q t hq]
        omega
    · rw [List.countP_cons_of_pos p t hp, List.countP_cons_of_neg q t (by simp [hd a hp])]
      omega

theorem neutral_filter_length {α : Type} (p q : α → Bool)
    (hd : ∀ x, p x = true → q x = false) (l : List α) :
    l.length - l.countP p - l.countP q = (l.filter fun x => !(p x) && !(q x)).length := by
  induction l with
  | nil => rfl
  | cons a t ih =>
    have hle := counts_disjoint_le p q hd t
    rw [List.length_cons, List.filter_cons]
    rcases hp : p a
    · rw [List.countP_cons_of_neg p t (by simp [hp])]
      rcases hq : q a
      · rw [List.countP_cons_of_neg q t (by simp [hq]), if_pos (by simp [hp, hq]),
          List.length_cons]
        omega
      · rw [List.countP_cons_of_pos q t hq, if_neg (by simp [hq])]
        omega
    · rw [List.countP_cons_of_pos p t hp, List.countP_cons_of_neg q t (by simp [hd a hp]),
        if_neg (by simp [hp])]
      omega

/-- C6: the source's confidence estimator coincides with the spec's
formulation: drop scores with |s| ≤ 0.05, return 0.5 on fewer than two
survivors, otherwise (largest bucket / survivors) × 0.7 plus average
magnitude × 0.3, clamped to at most 1.0. -/
theorem calculate_confidence_eq_spec (vs : VaderScores) (tp ps : ℚ) :
    calculate_confidence vs tp ps = confidenceSpec vs.compound tp ps := by
  unfold calculate_confidence confidenceSpec
  have hfil : ([vs.compound, tp, ps].filter fun s => !(decide (|s| ≤ 0.05)))
      = [vs.compound, tp, ps].filter fun s => decide (|s| > 0.05) := by
    apply List.filter_congr
    intro x _
    by_cases h : |x| ≤ 0.05
    · simp [h, not_lt.mpr h]
    · simp [h, lt_of_not_le h]
  rw [hfil]
  simp only []
  rw [neutral_filter_length _ _ (fun x hx => by
        have h := of_decide_eq_true hx
        simp only [decide_eq_false_iff_not]
        intro h'
        linarith),
    List.countP_eq_length_filter, List.countP_eq_length_filter]

theorem toNat_ofNat_valid {n : ℕ} (h : n.isValidChar) : (Char.ofNat n).toNat = n := by
  rw [Char.ofNat, dif_pos h]
  rfl

theorem pyIsUpper_pyLowerChar (c : Char) : pyIsUpper (pyLowerChar c) = false := by
  unfold pyIsUpper pyLowerChar
  by_cases h : (65 ≤ c.toNat && c.toNat ≤ 90) = true
  · rw [if_pos h]
    simp only [Bool.and_eq_true, decide_eq_true_eq] at h
    have hv : (c.toNat + 32).isValidChar := Or.inl (by omega)
    have ht : (Char.ofNat (c.toNat + 32)).toNat = c.toNat + 32 := toNat_ofNat_valid hv
    rw [ht]
    simp [show ¬ (c.toNat + 32 ≤ 90) by omega]
  · rw [if_neg h]
    simpa using h

theorem countP_pyIsUpper_lowerString (s : String) :
    (lowerString s).data.countP pyIsUpper = 0 := by
  unfold lowerString
  rw [List.countP_eq_zero]
  intro c hc
  obtain ⟨d, _, rfl⟩ := List.mem_map.mp hc
  simp [pyIsUpper_pyLowerChar]

/-- C8: on the output of `preprocess_text` (the text `analyze` feeds to the
intensity scorer) no character is uppercase, so the uppercase-ratio term of
`analyze_emotional_intensity` is exactly 0 and the scorer agrees with its
caps-free variant. -/
theorem intensity_caps_term_zero (text : String) :
    (preprocess_text text).data.countP pyIsUpper = 0 ∧
    analyze_emotional_intensity (preprocess_text text) =
      intensityNoCaps (preprocess_text text) := by
  have h0 : (preprocess_text text).data.countP pyIsUpper = 0 := by
    unfold preprocess_text
    exact countP_pyIsUpper_lowerString _
  refine ⟨h0, ?_⟩
  unfold analyze_emotional_intensity intensityNoCaps
  rw [h0]
  norm_num

theorem find?_filter_eq {α : Type} (l : List α) (p q : α → Bool)
    (h : ∀ x, p x = true → q x = true) :
    List.find? p (l.filter q) = List.find? p l := by
  induction l with
  | nil => rfl
  | cons a t ih =>
    by_cases hq : q a = true
    · rw [List.filter_cons_of_pos hq]
      by_cases hp : p a = true
      · rw [List.find?_cons_of_pos _ hp, List.find?_cons_of_pos _ hp]
      · rw [List.find?_cons_of_neg _ hp, List.find?_cons_of_neg _ hp]
        exact ih
    · have hp : ¬ p a = true := fun hp => hq (h a hp)
      rw [List.filter_cons_of_neg (by simpa using hq), List.find?_cons_of_neg _ hp]
      exact ih

theorem singleword_eq_filter :
    intensity_modifiers_singleword =
      intensity_modifiers.filter fun p => !(p.1 == "a bit") && !(p.1 == "a little") := rfl

theorem lookupW_mods_agree (w : String) (h1 : w ≠ "a bit") (h2 : w ≠ "a little") :
    lookupW intensity_modifiers_singleword w = lookupW intensity_modifiers w := by
  unfold lookupW
  rw [singleword_eq_filter, find?_filter_eq]
  intro x hx
  have hx' : x.1 = w := by simpa using hx
  subst hx'
  simp [h1, h2]

theorem pySplitAux_no_space : ∀ (l cur : List Char),
    (∀ c ∈ cur, pyIsSpace c = false) →
    ∀ w ∈ pySplitAux cur l, ∀ c ∈ w.data, pyIsSpace c = false := by
  intro l
  induction l with
  | nil =>
    intro cur hcur w hw
    unfold pySplitAux at hw
    split at hw
    · simp at hw
    · simp only [List.mem_singleton] at hw
      subst hw
      intro c hc
      exact hcur c (List.mem_reverse.mp hc)
  | cons a t ih =>
    intro cur hcur w hw
    unfold pySplitAux at hw
    by_cases ha : pyIsSpace a = true
    · rw [if_pos ha] at hw
      split at hw
      · exact ih [] (by simp) w hw
      · rcases List.mem_cons.mp hw with rfl | hw'
        · intro c hc
          exact hcur c (List.mem_reverse.mp hc)
        · exact ih [] (by simp) w hw'
    · rw [if_neg ha] at hw
      refine ih (a :: cur) ?_ w hw
      intro c hc
      rcases List.mem_cons.mp hc with rfl | hc'
      · simpa using ha
      · exact hcur c hc'

theorem pySplit_no_space (s : String) :
    ∀ w ∈ pySplit s, ∀ c ∈ w.data, pyIsSpace c = false :=
  pySplitAux_no_space s.data [] (by simp)

theorem pySplit_token_ne_multiword (s : String) :
    ∀ w ∈ pySplit s, w ≠ "a bit" ∧ w ≠ "a little" := by
  intro w hw
  constructor <;> rintro rfl
  · exact absurd (pySplit_no_space s _ hw ' ' (by decide)) (by decide)
  · exact absurd (pySplit_no_space s _ hw ' ' (by decide)) (by decide)

theorem wordScoreAt_singleword (words : List String)
    (hws : ∀ w ∈ words, w ≠ "a bit" ∧ w ≠ "a little") (i : ℕ) :
    wordScoreAt intensity_modifiers words i =
      wordScoreAt intensity_modifiers_singleword words i := by
  unfold wordScoreAt
  have hprev : (words.getD (i - 1) "" = "") ∨ words.getD (i - 1) "" ∈ words := by
    by_cases h : i - 1 < words.length
    · right
      rw [List.getD_eq_getElem _ _ h]
      exact List.getElem_mem h
    · left
      exact List.getD_eq_default _ _ (le_of_not_lt h)
  have hlk : lookupW intensity_modifiers_singleword (words.getD (i - 1) "")
      = lookupW intensity_modifiers (words.getD (i - 1) "") := by
    rcases hprev with h | h
    · rw [h]
      exact lookupW_mods_agree "" (by decide) (by decide)
    · obtain ⟨k1, k2⟩ := hws _ h
      exact lookupW_mods_agree _ k1 k2
  rw [hlk]

/-- C10: tokens produced by whitespace splitting never equal the multi-word
modifier keys "a bit" / "a little", and consequently the domain-weighted
scorer computes the same value whether or not those two entries are in the
modifier table. -/
theorem multiword_modifiers_dead (text : String) :
    (∀ w ∈ pySplit text, w ≠ "a bit" ∧ w ≠ "a little") ∧
    psychology_weighted_analysis text =
      psychologyWeightedWith intensity_modifiers_singleword text := by
  refine ⟨pySplit_token_ne_multiword text, ?_⟩
  unfold psychology_weighted_analysis psychologyWeightedWith
  have htot : psychTotal intensity_modifiers (pySplit text)
      = psychTotal intensity_modifiers_singleword (pySplit text) := by
    unfold psychTotal
    congr 1
    apply List.map_congr_left
    intro i _
    exact wordScoreAt_singleword (pySplit text) (pySplit_token_ne_multiword text) i
  simp only [htot]

end MoodMate
